import Mathlib

/-
Verification of the TripSpark Log microservice (src/main.py, src/db.py,
src/models/log.py) against its natural-language specification.

The Python service is embedded shallowly:
- pydantic models become Lean structures; pydantic validation of a request
  body becomes a function from a raw (optional-field) input to an Option;
- the relational database behind the SQLAlchemy engine becomes an explicit
  state (list of rows plus the auto-increment counter); timestamps are
  naturals supplied explicitly at each insert;
- each FastAPI endpoint becomes a pure function from its (already
  type-checked) inputs and the database state to a response value;
- float ratings are modelled as rationals (the validation bounds 1 and 5
  and every boundary probe in the spec are exactly representable, and
  5.01 compares to 5 the same way in binary floating point and in IHQQ).
-/

namespace TripsparkLog

/-- Embeds the pydantic model LogCreate = LogBase from src/models/log.py:
the six client-supplied fields of a log entry. The UUID field user_id is
kept as its canonical string form, which is also what store_log_db writes
to the database with str(log.user_id). -/
structure LogCreate where
  user_id : String
  user_name : String
  place_name : String
  rating : Option ℚ
  feedback : Option String
  action : String
deriving DecidableEq, Repr

/-- Embeds the pydantic model LogRead from src/models/log.py: LogBase plus
the server-assigned id and created_at. Also serves as the row type of the
relational table logs. -/
structure LogRead where
  id : ℕ
  user_id : String
  user_name : String
  place_name : String
  rating : Option ℚ
  feedback : Option String
  action : String
  created_at : ℕ
deriving DecidableEq, Repr

/-- A raw POST /logs request body before pydantic validation: every field
may be absent. A present user_id is taken as an already well-formed UUID
string; UUID-syntax checking is upstream of the properties verified here. -/
structure RawLogInput where
  user_id : Option String
  user_name : Option String
  place_name : Option String
  rating : Option ℚ
  feedback : Option String
  action : Option String
deriving DecidableEq, Repr

/-- Embeds the rating field constraint of LogBase (Field ge=1, le=5,
optional): an absent rating passes, a present one must lie in [1, 5]. -/
def ratingOk : Option ℚ → Bool
  | none => true
  | some r => decide (1 ≤ r) && decide (r ≤ 5)

/-- Embeds pydantic validation of a POST /logs body against LogCreate:
the four required fields user_id, user_name, place_name, action must be
present and the optional rating must satisfy its bounds; on success the
typed LogCreate value is produced, otherwise validation fails (FastAPI
turns the failure into a 422 response before the handler runs). -/
def validateLog (raw : RawLogInput) : Option LogCreate :=
  match raw.user_id, raw.user_name, raw.place_name, raw.action with
  | some uid, some uname, some pname, some act =>
      if ratingOk raw.rating then
        some { user_id := uid, user_name := uname, place_name := pname,
               rating := raw.rating, feedback := raw.feedback, action := act }
      else none
  | _, _, _, _ => none

/-- Responses of POST /logs: 202 Accepted with body status accepted, or
the 422 validation error produced by FastAPI for an invalid body. -/
inductive CreateResponse where
  | accepted
  | validationError
deriving DecidableEq, Repr

/-- HTTP status code of a POST /logs response. -/
def CreateResponse.statusCode : CreateResponse → ℕ
  | .accepted => 202
  | .validationError => 422

/-- Embeds the create_log handler from src/main.py together with the
validation FastAPI performs before calling it: an invalid body never
reaches the handler (422, no background task); a valid body reaches it,
one background task store_log_db(log) is scheduled via
background_tasks.add_task, and the handler returns 202 immediately.
The second component is the list of scheduled deferred persistence tasks,
each identified by the LogCreate it will persist. -/
def create_log (body : RawLogInput) : CreateResponse × List LogCreate :=
  match validateLog body with
  | some log => (.accepted, [log])
  | none => (.validationError, [])

/-- The fully-formed committed record built from the six submitted fields
of a LogCreate, a server-assigned id and a server-stamped created_at. -/
def mkRow (log : LogCreate) (theId now : ℕ) : LogRead :=
  { id := theId, user_id := log.user_id, user_name := log.user_name,
    place_name := log.place_name, rating := log.rating,
    feedback := log.feedback, action := log.action, created_at := now }

/-- State of the relational database behind the SQLAlchemy engine: the
rows of the table logs in insertion order, and the next value of the
auto-increment primary key. -/
structure DBState where
  rows : List LogRead
  nextId : ℕ
deriving DecidableEq, Repr

/-- The freshly provisioned table: no rows, auto-increment starts at 1. -/
def emptyDB : DBState := { rows := [], nextId := 1 }

/-- Modelled from the spec: the table logs has id as its only
server-generated auto-increment column and created_at stamped with the
current time at the moment of durable persistence (sections 3, 4.1 and 6
of the spec; no schema file exists under src/). Executing the INSERT of
store_log_db therefore appends a row carrying the six client-supplied
columns, the next identifier, and the current time. -/
def dbInsert (log : LogCreate) (now : ℕ) (s : DBState) : DBState :=
  { rows := s.rows ++ [mkRow log s.nextId now], nextId := s.nextId + 1 }

/-- Embeds store_log_db from src/main.py on the success path: it executes
the INSERT (the database assigning id and created_at, see dbInsert) and,
being declared -> None with no return statement, hands back None to its
caller; the second component is that Python return value. -/
def store_log_db (log : LogCreate) (now : ℕ) (s : DBState) :
    DBState × Option LogRead :=
  (dbInsert log now s, none)

/-- Embeds store_log_db including its failure mode: engine.begin raises
when the store is unreachable (dbUp = false), and store_log_db has no
try/except, so the exception propagates to its caller and no row is
written. -/
def store_log_db_attempt (dbUp : Bool) (log : LogCreate) (now : ℕ)
    (s : DBState) : Except String (DBState × Option LogRead) :=
  if dbUp then .ok (store_log_db log now s)
  else .error "storage unavailable"

/-- Embeds the WHERE clause built by list_logs in src/main.py: each
provided filter contributes one equality conjunct (AND semantics); an
omitted filter contributes nothing. -/
def matchesFilters (uid pname : Option String) (r : LogRead) : Bool :=
  (match uid with
   | none => true
   | some u => r.user_id == u) &&
  (match pname with
   | none => true
   | some p => r.place_name == p)

/-- The comparison underlying ORDER BY created_at DESC. -/
def byCreatedDesc (a b : LogRead) : Prop := b.created_at ≤ a.created_at

instance : DecidableRel byCreatedDesc :=
  fun a b => Nat.decLe b.created_at a.created_at

instance : IsTotal LogRead byCreatedDesc :=
  ⟨fun a b => Nat.le_total b.created_at a.created_at⟩

instance : IsTrans LogRead byCreatedDesc :=
  ⟨fun _ _ _ hab hbc => Nat.le_trans hbc hab⟩

/-- The strict version of byCreatedDesc; on rows with pairwise distinct
created_at it describes the same orderings and is antisymmetric. -/
def byCreatedStrictDesc (a b : LogRead) : Prop := b.created_at < a.created_at

instance : DecidableRel byCreatedStrictDesc :=
  fun a b => Nat.decLt b.created_at a.created_at

instance : IsAntisymm LogRead byCreatedStrictDesc :=
  ⟨fun _ _ hab hba => absurd (Nat.lt_trans hab hba) (Nat.lt_irrefl _)⟩

/-- Embeds the query of list_logs from src/main.py: SELECT the rows
matching the WHERE conjuncts, ORDER BY created_at DESC, then OFFSET and
LIMIT. The sort is modelled by insertion sort on the descending
comparison; SQL leaves the order of equal keys arbitrary and every
paginated claim below assumes distinct created_at values. -/
def list_logs (uid pname : Option String) (offset limit : ℕ)
    (s : DBState) : List LogRead :=
  ((List.insertionSort byCreatedDesc
      (s.rows.filter (matchesFilters uid pname))).drop offset).take limit

/-- Result of validating the GET /logs query parameters offset and limit,
which FastAPI checks against Query(0, ge=0) and Query(10, ge=1, le=100)
before the handler runs. -/
inductive ListParams where
  | ok (offset limit : ℕ)
  | invalid
deriving DecidableEq, Repr

/-- Embeds the FastAPI query-parameter layer of list_logs: an omitted
offset defaults to 0 and an omitted limit to 10; a provided offset must
satisfy ge=0 and a provided limit ge=1 and le=100, anything else being
rejected with 422 before the handler runs. -/
def validateListParams (offset limit : Option ℤ) : ListParams :=
  let o := offset.getD 0
  let l := limit.getD 10
  if 0 ≤ o ∧ 1 ≤ l ∧ l ≤ 100 then .ok o.toNat l.toNat else .invalid

/-- Responses of GET /logs: 200 with the selected rows, or the 422
produced by FastAPI for invalid query parameters. -/
inductive ListResponse where
  | ok (rows : List LogRead)
  | validationError
deriving DecidableEq, Repr

/-- HTTP status code of a GET /logs response. -/
def ListResponse.statusCode : ListResponse → ℕ
  | .ok _ => 200
  | .validationError => 422

/-- The GET /logs endpoint: parameter validation followed by the
list_logs handler from src/main.py. -/
def list_logs_endpoint (uid pname : Option String)
    (offset limit : Option ℤ) (s : DBState) : ListResponse :=
  match validateListParams offset limit with
  | .ok o l => .ok (list_logs uid pname o l s)
  | .invalid => .validationError

/-- Responses of GET /logs/{id}: 200 with the row, or the 404 raised by
get_log as HTTPException(status_code=404, detail="Log not found"). -/
inductive GetResponse where
  | ok (r : LogRead)
  | notFound
deriving DecidableEq, Repr

/-- HTTP status code of a GET /logs/{id} response. -/
def GetResponse.statusCode : GetResponse → ℕ
  | .ok _ => 200
  | .notFound => 404

/-- Embeds get_log from src/main.py: SELECT the rows WHERE id = :id, take
the first (mappings().first()), and raise 404 when there is none. The
path parameter is an integer; stored ids are the naturals issued by the
auto-increment column. -/
def get_log (log_id : ℤ) (s : DBState) : GetResponse :=
  match (s.rows.filter (fun r => (r.id : ℤ) == log_id)).head? with
  | some r => .ok r
  | none => .notFound

/-- Body of a GET /dbtest response: the handler returns either the
success payload with the value of SELECT 1 or the error payload carrying
the exception message; both as a 200 response. -/
inductive DBTestBody where
  | success (result : ℤ)
  | error (message : String)
deriving DecidableEq, Repr

/-- Embeds test_db_connection from src/main.py: the argument is the
outcome of executing SELECT 1 through the engine (ok with the scalar on a
live connection, error with the message on any exception); try/except
converts both into a plain 200 body. -/
def test_db_connection (conn : Except String ℤ) : ℕ × DBTestBody :=
  match conn with
  | .ok r => (200, .success r)
  | .error e => (200, .error e)

/-- Observable outcome of one deferred persistence task: the database
state after the attempt, the messages emitted to the error-reporting side
channel, how many automatic retries were made, whether the task runner
crashed, and whether anything was surfaced to the original caller (whose
202 response was already sent). -/
structure TaskOutcome where
  dbState : DBState
  sideChannel : List String
  retries : ℕ
  crashed : Bool
  surfacedToCaller : Bool
deriving DecidableEq, Repr

/-- Modelled from the spec: the background-task execution substrate that
runs the deferred store_log_db call is supplied by the hosting framework
and is absent from src/. Per sections 4.2, 6 and 7 of the spec it attempts
the task once, and on failure records the error through the
error-reporting side channel, performs no automatic retry, does not crash,
and surfaces nothing to the original caller. -/
def runDeferredPersist (dbUp : Bool) (log : LogCreate) (now : ℕ)
    (s : DBState) : TaskOutcome :=
  match store_log_db_attempt dbUp log now s with
  | .ok (s2, _) =>
      { dbState := s2, sideChannel := [], retries := 0,
        crashed := false, surfacedToCaller := false }
  | .error e =>
      { dbState := s, sideChannel := [e], retries := 0,
        crashed := false, surfacedToCaller := false }

/-- State of the in-memory storage backend described by the spec: a
mapping from id to LogRecord (kept as an association list) plus the
counter holding the next id. -/
structure InMemState where
  table : List (ℕ × LogRead)
  counter : ℕ
deriving DecidableEq, Repr

/-- The empty in-memory backend; its counter starts where the relational
auto-increment starts. -/
def emptyInMem : InMemState := { table := [], counter := 1 }

/-- Modelled from the spec: the in-memory backend of section 4.1 is not in
src/ (the source only ships the relational backend). Its persist assigns
the counter as the next id, stamps the current time as created_at, stores
the fully-formed record in the mapping, and returns it. -/
def inMemPersist (log : LogCreate) (now : ℕ) (s : InMemState) :
    InMemState × LogRead :=
  ({ table := s.table ++ [(s.counter, mkRow log s.counter now)],
     counter := s.counter + 1 }, mkRow log s.counter now)

/-- Modelled from the spec: the in-memory list of section 4.1 filters the
stored records with AND semantics, sorts them by created_at descending,
skips offset records and returns at most limit, all computed O(n) over
the values of the mapping. -/
def inMemList (uid pname : Option String) (offset limit : ℕ)
    (s : InMemState) : List LogRead :=
  ((List.insertionSort byCreatedDesc
      ((s.table.map Prod.snd).filter (matchesFilters uid pname))).drop
    offset).take limit

/-- Modelled from the spec: getById on the in-memory backend is exact
lookup of the id in the mapping, NotFound when absent. -/
def inMemGet (log_id : ℤ) (s : InMemState) : GetResponse :=
  match s.table.find? (fun p => (p.1 : ℤ) == log_id) with
  | some p => .ok p.2
  | none => .notFound

/-- One observable API call of the common storage contract: submit a
valid record (its deferred persistence task completing at the given
time), list with filters and already-validated pagination parameters, or
get by id. -/
inductive ApiOp where
  | submitOp (log : LogCreate) (now : ℕ)
  | listOp (uid pname : Option String) (offset limit : ℕ)
  | getOp (log_id : ℤ)
deriving DecidableEq, Repr

/-- One observable API response of the common storage contract. -/
inductive ApiResp where
  | acceptedResp
  | listResp (rows : List LogRead)
  | getResp (r : GetResponse)
deriving DecidableEq, Repr

/-- One step of the relational backend: submit runs the endpoint response
plus the deferred store_log_db insert, list and get run the handlers from
src/main.py. -/
def relStep (s : DBState) : ApiOp → DBState × ApiResp
  | .submitOp log now => ((store_log_db log now s).1, .acceptedResp)
  | .listOp uid pname offset limit =>
      (s, .listResp (list_logs uid pname offset limit s))
  | .getOp i => (s, .getResp (get_log i s))

/-- One step of the spec-modelled in-memory backend. -/
def memStep (s : InMemState) : ApiOp → InMemState × ApiResp
  | .submitOp log now => ((inMemPersist log now s).1, .acceptedResp)
  | .listOp uid pname offset limit =>
      (s, .listResp (inMemList uid pname offset limit s))
  | .getOp i => (s, .getResp (inMemGet i s))

/-- Responses of the relational backend to a call sequence, from the
empty table. -/
def relRun (s : DBState) : List ApiOp → List ApiResp
  | [] => []
  | op :: ops => (relStep s op).2 :: relRun (relStep s op).1 ops

/-- Responses of the in-memory backend to a call sequence, from the empty
mapping. -/
def memRun (s : InMemState) : List ApiOp → List ApiResp
  | [] => []
  | op :: ops => (memStep s op).2 :: memRun (memStep s op).1 ops

/-- Invariant tying a relational state to an in-memory state: the mapping
holds exactly the table rows keyed by their ids, and the id counters
agree. -/
def Simul (s : DBState) (t : InMemState) : Prop :=
  t.table = s.rows.map (fun r => (r.id, r)) ∧ t.counter = s.nextId

/-- Rank of a row among a row set: the number of rows with a strictly
larger created_at, which is its 0-based position in descending order when
created_at values are pairwise distinct. -/
def rankIn (rows : List LogRead) (x : LogRead) : ℕ :=
  (rows.filter (fun r => x.created_at < r.created_at)).length

/-- All stored ids are below the auto-increment counter; this holds in
every state reachable from the empty table and makes freshly issued ids
new. -/
def DBInv (s : DBState) : Prop :=
  0 < s.nextId ∧ ∀ r ∈ s.rows, 0 < r.id ∧ r.id < s.nextId

/-- Validity of a raw POST /logs body in the words of the claim: the four
required fields are present and the rating, when present, lies in [1, 5]. -/
def LogInputValid (raw : RawLogInput) : Prop :=
  raw.user_id.isSome ∧ raw.user_name.isSome ∧ raw.place_name.isSome ∧
    raw.action.isSome ∧ ∀ q, raw.rating = some q → 1 ≤ q ∧ q ≤ 5

/-- A concrete valid log record used as a test vector. -/
def sampleLog : LogCreate :=
  { user_id := "11111111-2222-4333-8444-555555555555",
    user_name := "Jane Doe", place_name := "Tokyo",
    rating := some 5, feedback := none, action := "visited_place" }

/-- A concrete valid raw request body used as a test vector. -/
def sampleBody : RawLogInput :=
  { user_id := some "11111111-2222-4333-8444-555555555555",
    user_name := some "Jane Doe", place_name := some "Tokyo",
    rating := some 5, feedback := none, action := some "visited_place" }

/-- A committed row (id 1, created_at 1) used as a test vector. -/
def rowOld : LogRead :=
  { id := 1, user_id := "u", user_name := "n", place_name := "p",
    rating := none, feedback := none, action := "visited_place",
    created_at := 1 }

/-- A later committed row (id 2, created_at 2) by the same user at the
same place, used as a test vector. -/
def rowNew : LogRead :=
  { id := 2, user_id := "u", user_name := "n", place_name := "p",
    rating := none, feedback := none, action := "visited_place",
    created_at := 2 }

/-- A concrete database state with the two committed test rows. -/
def sampleDB : DBState := { rows := [rowOld, rowNew], nextId := 3 }

/-- The rating bound check succeeds exactly when every present rating lies
in [1, 5]. -/
theorem ratingOk_iff (q : Option ℚ) :
    ratingOk q = true ↔ ∀ x, q = some x → 1 ≤ x ∧ x ≤ 5 := by
  cases q with
  | none => simp [ratingOk]
  | some x => simp [ratingOk]

/-- Pydantic validation succeeds exactly on bodies that are valid in the
sense of the claims: required fields present, rating in range. -/
theorem validateLog_isSome_iff (body : RawLogInput) :
    (validateLog body).isSome ↔ LogInputValid body := by
  obtain ⟨uid, uname, pname, rat, fb, act⟩ := body
  cases uid <;> cases uname <;> cases pname <;> cases act <;>
    simp [validateLog, LogInputValid, ← ratingOk_iff]

/-- C1: a POST /logs body that is a valid LogRecordInput (the four
required fields present and any present rating within [1, 5]) makes the
handler schedule exactly one deferred persistence task and answer 202
with body status accepted, without running the task; any other body is
rejected with a 422 validation error and no task is scheduled. In
particular rating 0, 5.01 and 6 are rejected while 1, 3.5 and 5 are
accepted, and a missing user_id or action is rejected. -/
theorem create_log_accepts_valid_rejects_invalid :
    (∀ body : RawLogInput, LogInputValid body →
        ∃ log, validateLog body = some log ∧
          create_log body = (CreateResponse.accepted, [log])) ∧
    (∀ body : RawLogInput, ¬ LogInputValid body →
        create_log body = (CreateResponse.validationError, [])) ∧
    CreateResponse.statusCode CreateResponse.accepted = 202 ∧
    CreateResponse.statusCode CreateResponse.validationError = 422 ∧
    create_log { sampleBody with rating := some 0 } =
        (CreateResponse.validationError, []) ∧
    create_log { sampleBody with rating := some (501 / 100) } =
        (CreateResponse.validationError, []) ∧
    create_log { sampleBody with rating := some 6 } =
        (CreateResponse.validationError, []) ∧
    (create_log { sampleBody with rating := some 1 }).1 =
        CreateResponse.accepted ∧
    (create_log { sampleBody with rating := some (7 / 2) }).1 =
        CreateResponse.accepted ∧
    (create_log { sampleBody with rating := some 5 }).1 =
        CreateResponse.accepted ∧
    create_log { sampleBody with user_id := none } =
        (CreateResponse.validationError, []) ∧
    create_log { sampleBody with action := none } =
        (CreateResponse.validationError, []) := by
  have hacc : ∀ body : RawLogInput, LogInputValid body →
      ∃ log, validateLog body = some log ∧
        create_log body = (CreateResponse.accepted, [log]) := by
    intro body hv
    have h : (validateLog body).isSome := (validateLog_isSome_iff body).mpr hv
    obtain ⟨log, hlog⟩ := Option.isSome_iff_exists.mp h
    exact ⟨log, hlog, by simp [create_log, hlog]⟩
  have hrej : ∀ body : RawLogInput, ¬ LogInputValid body →
      create_log body = (CreateResponse.validationError, []) := by
    intro body hv
    have h : validateLog body = none := by
      by_contra hne
      exact hv ((validateLog_isSome_iff body).mp
        (Option.isSome_iff_ne_none.mpr hne))
    simp [create_log, h]
  have haccFst : ∀ body : RawLogInput, LogInputValid body →
      (create_log body).1 = CreateResponse.accepted := by
    intro body hv
    obtain ⟨log, _, heq⟩ := hacc body hv
    rw [heq]
  refine ⟨hacc, hrej, rfl, rfl, ?_, ?_, ?_, ?_, ?_, ?_, ?_, ?_⟩
  · exact hrej _ (fun hv => by have := hv.2.2.2.2 0 rfl; norm_num at this)
  · exact hrej _ (fun hv => by
      have := hv.2.2.2.2 (501 / 100) rfl; norm_num at this)
  · exact hrej _ (fun hv => by have := hv.2.2.2.2 6 rfl; norm_num at this)
  · exact haccFst _ ⟨rfl, rfl, rfl, rfl,
      fun q hq => by cases hq; norm_num⟩
  · exact haccFst _ ⟨rfl, rfl, rfl, rfl,
      fun q hq => by cases hq; norm_num⟩
  · exact haccFst _ ⟨rfl, rfl, rfl, rfl,
      fun q hq => by cases hq; norm_num⟩
  · exact hrej _ (fun hv => by have := hv.1; simp at this)
  · exact hrej _ (fun hv => by have := hv.2.2.2.1; simp at this)

/-- C1 witness: the sample body is valid and accepted with one task. -/
theorem create_log_accepts_valid_rejects_invalid_witness :
    ∃ log, validateLog sampleBody = some log ∧
      create_log sampleBody = (CreateResponse.accepted, [log]) := by
  refine create_log_accepts_valid_rejects_invalid.1 sampleBody
    ⟨rfl, rfl, rfl, rfl, fun q hq => ?_⟩
  cases hq
  exact ⟨by norm_num, by norm_num⟩

/-- C5 counterexample: store_log_db hands back None, not the fully-formed
LogRecord, so the persist operation of the shipped backend does not
return the stored record to its caller. -/
theorem store_log_db_no_return_value_cex :
    ¬ ∃ rec : LogRead, (store_log_db sampleLog 5 emptyDB).2 = some rec := by
  rintro ⟨rec, h⟩
  simp [store_log_db] at h

/-- C5 (amended): store_log_db appends exactly one row carrying the six
submitted fields, the next auto-increment identifier and the current time
as created_at, advances the counter, and returns None (not the record)
to its caller. -/
theorem store_log_db_persists_without_returning (log : LogCreate)
    (now : ℕ) (s : DBState) :
    (store_log_db log now s).1.rows =
      s.rows ++ [mkRow log s.nextId now] ∧
    (mkRow log s.nextId now).id = s.nextId ∧
    (mkRow log s.nextId now).created_at = now ∧
    (mkRow log s.nextId now).user_id = log.user_id ∧
    (mkRow log s.nextId now).user_name = log.user_name ∧
    (mkRow log s.nextId now).place_name = log.place_name ∧
    (mkRow log s.nextId now).rating = log.rating ∧
    (mkRow log s.nextId now).feedback = log.feedback ∧
    (mkRow log s.nextId now).action = log.action ∧
    (store_log_db log now s).1.nextId = s.nextId + 1 ∧
    (store_log_db log now s).2 = none :=
  ⟨rfl, rfl, rfl, rfl, rfl, rfl, rfl, rfl, rfl, rfl, rfl⟩

/-- C6: when the deferred persistence attempt fails, the task runner
reports exactly that failure on the error side channel, performs no
automatic retry, does not crash, and surfaces nothing to the original
caller. -/
theorem deferred_persist_failure_isolated (dbUp : Bool) (log : LogCreate)
    (now : ℕ) (s : DBState) (e : String)
    (hfail : store_log_db_attempt dbUp log now s = Except.error e) :
    (runDeferredPersist dbUp log now s).sideChannel = [e] ∧
    (runDeferredPersist dbUp log now s).retries = 0 ∧
    (runDeferredPersist dbUp log now s).crashed = false ∧
    (runDeferredPersist dbUp log now s).surfacedToCaller = false := by
  unfold runDeferredPersist
  rw [hfail]
  exact ⟨rfl, rfl, rfl, rfl⟩

/-- C6 witness: with the store unreachable, the sample insert fails and
is contained as claimed. -/
theorem deferred_persist_failure_isolated_witness :
    store_log_db_attempt false sampleLog 0 emptyDB =
        Except.error "storage unavailable" ∧
    (runDeferredPersist false sampleLog 0 emptyDB).sideChannel =
        ["storage unavailable"] ∧
    (runDeferredPersist false sampleLog 0 emptyDB).crashed = false :=
  ⟨rfl,
   (deferred_persist_failure_isolated false sampleLog 0 emptyDB
      "storage unavailable" rfl).1,
   (deferred_persist_failure_isolated false sampleLog 0 emptyDB
      "storage unavailable" rfl).2.2.1⟩

/-- C8: GET /logs rejects limit outside [1, 100] and negative offset with
a 422 at the parameter boundary (in particular limit 0 and limit 101),
never clamping, and omitted parameters default to offset 0 and limit 10. -/
theorem list_params_rejected_not_clamped :
    (∀ o l : ℤ, validateListParams (some o) (some l) = ListParams.invalid ↔
        (o < 0 ∨ l < 1 ∨ 100 < l)) ∧
    validateListParams none none = ListParams.ok 0 10 ∧
    (∀ s, list_logs_endpoint none none none none s =
        ListResponse.ok (list_logs none none 0 10 s)) ∧
    (∀ (s : DBState) (o l : ℤ),
        (list_logs_endpoint none none (some o) (some l) s).statusCode = 422
          ↔ (o < 0 ∨ l < 1 ∨ 100 < l)) ∧
    validateListParams (some 0) (some 0) = ListParams.invalid ∧
    validateListParams (some 0) (some 101) = ListParams.invalid := by
  have hiff : ∀ o l : ℤ,
      validateListParams (some o) (some l) = ListParams.invalid ↔
        (o < 0 ∨ l < 1 ∨ 100 < l) := by
    intro o l
    simp only [validateListParams, Option.getD_some]
    split <;> rename_i h
    all_goals simp_all
    all_goals omega
  refine ⟨hiff, by decide, fun s => rfl, fun s o l => ?_, ?_, ?_⟩
  · constructor
    · intro h
      rcases hval : validateListParams (some o) (some l) with ⟨o2, l2⟩ | _
      · exfalso
        unfold list_logs_endpoint at h
        rw [hval] at h
        simp [ListResponse.statusCode] at h
      · exact (hiff o l).mp hval
    · intro h
      unfold list_logs_endpoint
      rw [(hiff o l).mpr h]
      rfl
  · rw [hiff 0 0]
    omega
  · rw [hiff 0 101]
    omega

/-- C10: GET /dbtest always answers with HTTP 200: the success payload
with result 1 when SELECT 1 answers, and the error payload carrying the
exception message when anything fails; never a 5xx. -/
theorem dbtest_always_200 :
    (∀ conn, (test_db_connection conn).1 = 200) ∧
    test_db_connection (Except.ok 1) = (200, DBTestBody.success 1) ∧
    (∀ e, test_db_connection (Except.error e) =
        (200, DBTestBody.error e)) := by
  refine ⟨fun conn => ?_, rfl, fun e => rfl⟩
  cases conn <;> rfl

/-- Selecting the rows WHERE id = :id from a table with pairwise distinct
ids leaves exactly the one matching row. -/
theorem filter_id_eq_of_mem (rows : List LogRead) (r : LogRead)
    (hnd : rows.Pairwise (fun a b => a.id ≠ b.id)) (hmem : r ∈ rows) :
    rows.filter (fun x => ((x.id : ℤ) == (r.id : ℤ))) = [r] := by
  induction rows with
  | nil => cases hmem
  | cons a tl ih =>
    have hpw := List.pairwise_cons.mp hnd
    rcases List.mem_cons.mp hmem with heq | hmem2
    · subst heq
      have hnil : tl.filter (fun x => ((x.id : ℤ) == (r.id : ℤ))) = [] := by
        refine List.filter_eq_nil_iff.mpr ?_
        intro x hx
        simp only [beq_iff_eq, Nat.cast_inj]
        exact fun hc => (hpw.1 x hx) hc.symm
      simp [List.filter_cons, hnil]
    · have ha : ¬ ((a.id : ℤ) == (r.id : ℤ)) = true := by
        simp only [beq_iff_eq, Nat.cast_inj]
        exact hpw.1 r hmem2
      simp only [List.filter_cons, ha, if_false]
      exact ih hpw.2 hmem2

/-- C9: GET /logs/{id} answers 404 for every integer id carried by no
persisted record (in particular, under the reachability invariant, for
every nonpositive id and every id the auto-increment has not issued yet),
and answers the single matching LogRecord for every persisted id. -/
theorem get_log_not_found_or_unique :
    (∀ (s : DBState) (i : ℤ), (∀ r ∈ s.rows, (r.id : ℤ) ≠ i) →
        get_log i s = GetResponse.notFound) ∧
    (∀ (s : DBState) (i : ℤ), DBInv s → (i ≤ 0 ∨ (s.nextId : ℤ) ≤ i) →
        get_log i s = GetResponse.notFound) ∧
    (∀ (s : DBState) (r : LogRead),
        s.rows.Pairwise (fun a b => a.id ≠ b.id) → r ∈ s.rows →
        get_log (r.id : ℤ) s = GetResponse.ok r) ∧
    GetResponse.statusCode GetResponse.notFound = 404 := by
  have hnone : ∀ (s : DBState) (i : ℤ), (∀ r ∈ s.rows, (r.id : ℤ) ≠ i) →
      get_log i s = GetResponse.notFound := by
    intro s i hne
    unfold get_log
    have h : s.rows.filter (fun r => ((r.id : ℤ) == i)) = [] := by
      refine List.filter_eq_nil_iff.mpr ?_
      intro r hr
      simp only [beq_iff_eq]
      exact hne r hr
    rw [h]
    rfl
  refine ⟨hnone, fun s i hinv hrange => ?_, fun s r hnd hmem => ?_, rfl⟩
  · refine hnone s i ?_
    intro r hr
    have hb := (hinv.2 r hr).1
    have ht := (hinv.2 r hr).2
    rcases hrange with h0 | hn <;> omega
  · unfold get_log
    rw [filter_id_eq_of_mem s.rows r hnd hmem]
    rfl

/-- C9 witness: id 99 was never issued and is a 404; id 1 is committed
and looked up exactly. -/
theorem get_log_not_found_or_unique_witness :
    get_log 99 sampleDB = GetResponse.notFound ∧
    get_log ((rowOld.id : ℕ) : ℤ) sampleDB = GetResponse.ok rowOld :=
  ⟨get_log_not_found_or_unique.1 sampleDB 99 (by decide),
   get_log_not_found_or_unique.2.2.1 sampleDB rowOld (by decide) (by decide)⟩

/-- C2: a valid submitted body is accepted with exactly its parsed record
as the one deferred task, and once that task has run, getById of the
assigned id returns a record agreeing with the input on all six submitted
fields, with id and created_at populated by the backend. -/
theorem submit_roundtrip (body : RawLogInput) (log : LogCreate)
    (s : DBState) (now : ℕ)
    (hval : validateLog body = some log) (hinv : DBInv s) :
    create_log body = (CreateResponse.accepted, [log]) ∧
    get_log (s.nextId : ℤ) (store_log_db log now s).1 =
      GetResponse.ok (mkRow log s.nextId now) := by
  constructor
  · simp [create_log, hval]
  · unfold get_log store_log_db dbInsert
    rw [List.filter_append]
    have h1 : s.rows.filter (fun r => ((r.id : ℤ) == (s.nextId : ℤ))) = [] := by
      refine List.filter_eq_nil_iff.mpr ?_
      intro r hr
      have := (hinv.2 r hr).2
      simp only [beq_iff_eq, Nat.cast_inj]
      omega
    rw [h1]
    simp [mkRow]

/-- C2 witness: the sample body round-trips through an empty database. -/
theorem submit_roundtrip_witness :
    create_log sampleBody = (CreateResponse.accepted, [sampleLog]) ∧
    get_log (emptyDB.nextId : ℤ) (store_log_db sampleLog 7 emptyDB).1 =
      GetResponse.ok (mkRow sampleLog emptyDB.nextId 7) :=
  submit_roundtrip sampleBody sampleLog emptyDB 7 (by decide)
    (by simp [DBInv, emptyDB])

/-- On rows with pairwise distinct created_at, the descending sort
produced by ORDER BY created_at DESC is strictly descending. -/
theorem sortDesc_strict (rows : List LogRead)
    (hd : rows.Pairwise (fun a b => a.created_at ≠ b.created_at)) :
    (List.insertionSort byCreatedDesc rows).Sorted byCreatedStrictDesc := by
  have hperm := List.perm_insertionSort byCreatedDesc rows
  have hsorted := List.sorted_insertionSort byCreatedDesc rows
  have hne : (List.insertionSort byCreatedDesc rows).Pairwise
      (fun a b => a.created_at ≠ b.created_at) :=
    (hperm.pairwise_iff (fun {a b} h => Ne.symm h)).mpr hd
  refine (hsorted.and hne).imp ?_
  intro a b hab
  exact Nat.lt_of_le_of_ne hab.1 (Ne.symm hab.2)

/-- On rows with pairwise distinct created_at, the sort behind
ORDER BY created_at DESC is the unique strictly-descending arrangement. -/
theorem sorted_arrangement_unique (rows l : List LogRead)
    (hd : rows.Pairwise (fun a b => a.created_at ≠ b.created_at))
    (hperm : l.Perm rows) (hsort : l.Sorted byCreatedStrictDesc) :
    List.insertionSort byCreatedDesc rows = l :=
  List.eq_of_perm_of_sorted
    ((List.perm_insertionSort byCreatedDesc rows).trans hperm.symm)
    (sortDesc_strict rows hd) hsort

/-- C3: on N committed records with pairwise distinct created_at values,
an unfiltered list call with offset k and limit m returns exactly
positions [k, k+m) of the descending-by-created_at arrangement of the
records (k skipped, at most m returned), and the empty sequence whenever
k is at least N. -/
theorem pagination_ranked (s : DBState) (k m : ℕ) (l : List LogRead)
    (hd : s.rows.Pairwise (fun a b => a.created_at ≠ b.created_at))
    (hperm : l.Perm s.rows) (hsort : l.Sorted byCreatedStrictDesc) :
    list_logs none none k m s = (l.drop k).take m ∧
    (s.rows.length ≤ k → list_logs none none k m s = []) := by
  have hfilter : s.rows.filter (matchesFilters none none) = s.rows :=
    List.filter_eq_self.mpr (fun a _ => rfl)
  have hmain : list_logs none none k m s = (l.drop k).take m := by
    unfold list_logs
    rw [hfilter, sorted_arrangement_unique s.rows l hd hperm hsort]
  refine ⟨hmain, fun hk => ?_⟩
  rw [hmain, List.drop_eq_nil_of_le (by rw [hperm.length_eq]; exact hk),
    List.take_nil]

/-- C3 witness: on the two sample records (created_at 2 and 1), offset 1
and limit 1 return exactly the second-ranked record, and offset 2 returns
nothing. -/
theorem pagination_ranked_witness :
    list_logs none none 1 1 sampleDB = [rowOld] ∧
    list_logs none none 2 10 sampleDB = [] := by
  constructor
  · have h := (pagination_ranked sampleDB 1 1 [rowNew, rowOld] (by decide)
      (List.Perm.swap rowOld rowNew []) (by decide)).1
    simpa using h
  · exact (pagination_ranked sampleDB 2 10 [rowNew, rowOld] (by decide)
      (List.Perm.swap rowOld rowNew []) (by decide)).2 (by decide)

/-- With offset 0 and a limit covering all rows, a list call contains a
record exactly when the record is committed and matches the filters. -/
theorem mem_list_logs_full (uid pname : Option String) (m : ℕ)
    (s : DBState) (hm : s.rows.length ≤ m) (x : LogRead) :
    x ∈ list_logs uid pname 0 m s ↔
      (x ∈ s.rows ∧ matchesFilters uid pname x = true) := by
  have hlen : (List.insertionSort byCreatedDesc
      (s.rows.filter (matchesFilters uid pname))).length ≤ m := by
    rw [List.length_insertionSort]
    exact le_trans (List.length_filter_le _ _) hm
  unfold list_logs
  rw [List.drop_zero, List.take_of_length_le hlen, List.mem_insertionSort,
    List.mem_filter]

/-- A record matching both equality filters matches each single filter
and the unfiltered query. -/
theorem matchesFilters_mono (U P : String) (x : LogRead)
    (h : matchesFilters (some U) (some P) x = true) :
    matchesFilters (some U) none x = true ∧
    matchesFilters none (some P) x = true ∧
    matchesFilters none none x = true := by
  simp only [matchesFilters, Bool.and_eq_true] at h ⊢
  exact ⟨⟨h.1, trivial⟩, ⟨trivial, h.2⟩, trivial, trivial⟩

/-- C4 counterexample: list always paginates, so with two committed
records matching both filters and limit 1 the doubly-filtered call
returns only the newer record and not the whole matching subset — the
claim read over every list call is false. -/
theorem filter_conjunction_cex :
    ¬ ∀ (s : DBState) (U P : String) (offset limit : ℕ),
        ∀ x : LogRead, x ∈ list_logs (some U) (some P) offset limit s ↔
          (x ∈ s.rows ∧ matchesFilters (some U) (some P) x = true) := by
  intro h
  have hmem := (h sampleDB "u" "p" 0 1 rowOld).mpr
    ⟨by simp [sampleDB], by decide⟩
  have hres : list_logs (some "u") (some "p") 0 1 sampleDB = [rowNew] := by
    decide
  rw [hres] at hmem
  simp [rowOld, rowNew] at hmem

/-- C4 (amended): with offset 0 and a limit of at least the number of
committed records, list(userId=U, placeName=P) returns exactly the subset
of records matching both filters (AND semantics), and omitting either or
both filters widens the result monotonically: every record of the
doubly-filtered call also appears in each singly-filtered call and in the
unfiltered call under the same pagination window. -/
theorem filter_conjunction_amended (s : DBState) (U P : String) (m : ℕ)
    (hm : s.rows.length ≤ m) :
    (∀ x, x ∈ list_logs (some U) (some P) 0 m s ↔
        (x ∈ s.rows ∧ matchesFilters (some U) (some P) x = true)) ∧
    (∀ x, x ∈ list_logs (some U) (some P) 0 m s →
        x ∈ list_logs (some U) none 0 m s) ∧
    (∀ x, x ∈ list_logs (some U) (some P) 0 m s →
        x ∈ list_logs none (some P) 0 m s) ∧
    (∀ x, x ∈ list_logs (some U) (some P) 0 m s →
        x ∈ list_logs none none 0 m s) := by
  refine ⟨fun x => mem_list_logs_full _ _ m s hm x, fun x hx => ?_,
    fun x hx => ?_, fun x hx => ?_⟩ <;>
    obtain ⟨hmem, hmatch⟩ := (mem_list_logs_full _ _ m s hm x).mp hx
  · exact (mem_list_logs_full _ _ m s hm x).mpr
      ⟨hmem, (matchesFilters_mono U P x hmatch).1⟩
  · exact (mem_list_logs_full _ _ m s hm x).mpr
      ⟨hmem, (matchesFilters_mono U P x hmatch).2.1⟩
  · exact (mem_list_logs_full _ _ m s hm x).mpr
      ⟨hmem, (matchesFilters_mono U P x hmatch).2.2⟩

/-- C4 witness: with a covering limit, the older matching sample record
is returned by the doubly-filtered call and by the widened calls. -/
theorem filter_conjunction_amended_witness :
    rowOld ∈ list_logs (some "u") (some "p") 0 2 sampleDB ∧
    rowOld ∈ list_logs none none 0 2 sampleDB := by
  have h := filter_conjunction_amended sampleDB "u" "p" 2 (by decide)
  have hmem : rowOld ∈ list_logs (some "u") (some "p") 0 2 sampleDB :=
    (h.1 rowOld).mpr ⟨by simp [sampleDB], by decide⟩
  exact ⟨hmem, h.2.2.2 rowOld hmem⟩

/-- Exact lookup in the id-keyed mapping agrees with selecting the first
row WHERE id = :id from the underlying row list. -/
theorem find_pair_eq_filter_head (i : ℤ) (rows : List LogRead) :
    (rows.map (fun r => (r.id, r))).find? (fun p => ((p.1 : ℤ) == i)) =
      ((rows.filter (fun r => ((r.id : ℤ) == i))).head?).map
        (fun r => (r.id, r)) := by
  induction rows with
  | nil => rfl
  | cons a tl ih =>
    cases h : ((a.id : ℤ) == i) with
    | true => simp [List.find?_cons, List.filter_cons, h]
    | false => simp [List.find?_cons, List.filter_cons, h, ih]

/-- The values of the id-keyed mapping built over a row list are the rows
themselves. -/
theorem map_pair_snd (rows : List LogRead) :
    (rows.map (fun r => (r.id, r))).map Prod.snd = rows := by
  induction rows with
  | nil => rfl
  | cons a tl ih => simp [ih]

/-- The simulation invariant is preserved by every API call, and the two
backends answer it identically. -/
theorem simul_preserved (s : DBState) (t : InMemState) (op : ApiOp)
    (h : Simul s t) :
    Simul (relStep s op).1 (memStep t op).1 ∧
      (relStep s op).2 = (memStep t op).2 := by
  obtain ⟨htab, hcnt⟩ := h
  cases op with
  | submitOp log now =>
      refine ⟨⟨?_, ?_⟩, rfl⟩
      · simp only [relStep, memStep, store_log_db, dbInsert, inMemPersist,
          htab, hcnt, List.map_append, List.map_cons, List.map_nil, mkRow]
      · simp only [relStep, memStep, store_log_db, dbInsert, inMemPersist,
          hcnt]
  | listOp uid pname offset limit =>
      refine ⟨⟨htab, hcnt⟩, ?_⟩
      simp only [relStep, memStep, ApiResp.listResp.injEq]
      unfold list_logs inMemList
      rw [htab, map_pair_snd]
  | getOp i =>
      refine ⟨⟨htab, hcnt⟩, ?_⟩
      simp only [relStep, memStep, ApiResp.getResp.injEq]
      unfold get_log inMemGet
      rw [htab, find_pair_eq_filter_head]
      cases (s.rows.filter fun r => ((r.id : ℤ) == i)).head? <;> rfl

/-- Simulation-related states answer every call sequence identically. -/
theorem run_equal (ops : List ApiOp) : ∀ (s : DBState) (t : InMemState),
    Simul s t → relRun s ops = memRun t ops := by
  induction ops with
  | nil => intro s t _; rfl
  | cons op ops ih =>
      intro s t h
      obtain ⟨hsim, hresp⟩ := simul_preserved s t op h
      simp only [relRun, memRun]
      rw [hresp, ih _ _ hsim]

/-- C7: from their empty initial states, the relational backend shipped
in src/main.py and the spec-modelled in-memory backend produce identical
observable API responses for every identical sequence of submit, list and
get calls (timestamps being supplied identically to both). -/
theorem backend_equivalence (ops : List ApiOp) :
    relRun emptyDB ops = memRun emptyInMem ops :=
  run_equal ops emptyDB emptyInMem ⟨rfl, rfl⟩

end TripsparkLog
